import Mathlib

/-!
# Verification of the 1D HLL Euler solver (enzo_hll)

Shallow embedding of the numerical core of the repository: the state
container (`Grid`), the conserved/primitive variable transform, the HLL
Riemann flux engine, the CFL time-step controller and the stepping driver
(`Solver.step`, `Solver.runSimulation`).  Floating-point doubles are
modelled as real numbers (exact arithmetic); `std::sqrt` is `Real.sqrt`;
the index type `int` is `ℤ` where bounds checks matter.  Mutation of the
grid is modelled by functions returning the updated grid.
-/

namespace enzo_hll

/-- Conserved variables at a single grid point (struct `Cell`, grid.h). -/
structure Cell where
  rho : ℝ
  mom : ℝ
  energy : ℝ


/-- Primitive variables (struct `Primitive`, grid.h). -/
structure Primitive where
  rho : ℝ
  u : ℝ
  p : ℝ


/-- Interface flux triple (struct `Flux`, solver.h). -/
structure Flux where
  rho : ℝ
  mom : ℝ
  eng : ℝ


instance : Inhabited Cell := ⟨⟨0, 0, 0⟩⟩
instance : Inhabited Primitive := ⟨⟨0, 0, 0⟩⟩
instance : Inhabited Flux := ⟨⟨0, 0, 0⟩⟩

namespace Solver

/-- Source `Solver::soundSpeed` (solver.cpp): `sqrt(gamma * max(p,1e-14) / max(rho,1e-14))`. -/
noncomputable def soundSpeed (p : Primitive) (gamma : ℝ) : ℝ :=
  let press := max p.p 1e-14
  let dens := max p.rho 1e-14
  Real.sqrt (gamma * press / dens)

/-- Source `Solver::conservedToPrimitive` (solver.cpp). -/
noncomputable def conservedToPrimitive (c : Cell) (gamma : ℝ) : Primitive :=
  let rho := max c.rho 1e-14
  let u := c.mom / rho
  let kinetic := 0.5 * rho * u * u
  let internal_eng := c.energy - kinetic
  { rho := rho, u := u, p := max ((gamma - 1) * internal_eng) 1e-14 }

/-- Source `Solver::primitiveToConserved` (solver.cpp). -/
noncomputable def primitiveToConserved (p : Primitive) (gamma : ℝ) : Cell :=
  let internal := p.p / (gamma - 1)
  let kinetic := 0.5 * p.rho * p.u * p.u
  { rho := p.rho, mom := p.rho * p.u, energy := internal + kinetic }

/-- Source `Solver::computeHLLFlux` (solver.cpp): Davis wave-speed estimates,
physical fluxes of both states, then the three-branch HLL logic. -/
noncomputable def computeHLLFlux (L R : Primitive) (gamma : ℝ) : Flux :=
  let aL := soundSpeed L gamma
  let aR := soundSpeed R gamma
  let SL := min (L.u - aL) (R.u - aR)
  let SR := max (L.u + aL) (R.u + aR)
  let UL := primitiveToConserved L gamma
  let FL : Flux := { rho := UL.mom, mom := UL.mom * L.u + L.p, eng := L.u * (UL.energy + L.p) }
  let UR := primitiveToConserved R gamma
  let FR : Flux := { rho := UR.mom, mom := UR.mom * R.u + R.p, eng := R.u * (UR.energy + R.p) }
  if SL ≥ 0 then FL
  else if SR ≤ 0 then FR
  else
    let denom := 1 / (SR - SL)
    { rho := (SR * FL.rho - SL * FR.rho + SL * SR * (UR.rho - UL.rho)) * denom
      mom := (SR * FL.mom - SL * FR.mom + SL * SR * (UR.mom - UL.mom)) * denom
      eng := (SR * FL.eng - SL * FR.eng + SL * SR * (UR.energy - UL.energy)) * denom }

end Solver

/-- The state container (class `Grid`, grid.h/grid.cpp): uniform cell width
`dx` and the per-cell conserved state array `cells_` in spatial order.
`Grid::size()` is `cells.length`. -/
structure Grid where
  dx : ℝ
  cells : List Cell

namespace Grid

/-- Source `Grid::getCell` (grid.cpp): bounds-checked read; out of range returns
the zero cell `{0.0, 0.0, 0.0}`. -/
def getCell (g : Grid) (i : ℤ) : Cell :=
  if 0 ≤ i ∧ i < (g.cells.length : ℤ) then g.cells.getD i.toNat default
  else ⟨0, 0, 0⟩

/-- Source `Grid::setCell` (grid.cpp): bounds-checked write; out of range is a
silent no-op. -/
def setCell (g : Grid) (i : ℤ) (c : Cell) : Grid :=
  if 0 ≤ i ∧ i < (g.cells.length : ℤ) then { g with cells := g.cells.set i.toNat c }
  else g

/-- Negate the momentum stored at index `i` (the statement
`cells_[i].mom = -cells_[i].mom;`). -/
def negMomAt (cs : List Cell) (i : ℕ) : List Cell :=
  match cs.get? i with
  | some c => cs.set i { c with mom := -c.mom }
  | none => cs

/-- Source `Grid::applyBoundaryConditions` (grid.cpp): early return when
`nx_ < 2`; `outflow`/`transmissive` do nothing; `reflective` negates the
momentum of cell `0` and of cell `nx_-1`; any other kind does nothing. -/
def applyBoundaryConditions (g : Grid) (bc_type : String) : Grid :=
  if g.cells.length < 2 then g
  else if bc_type = "outflow" ∨ bc_type = "transmissive" then g
  else if bc_type = "reflective" then
    { g with cells := negMomAt (negMomAt g.cells 0) (g.cells.length - 1) }
  else g

end Grid

namespace Solver

/-- The scan of `Solver::computeCFL`'s loop (solver.cpp): running maximum
`max_signal`, updated by `if (signal > max_signal) max_signal = signal;`
for each cell in order. -/
noncomputable def maxSignalAux (gamma : ℝ) : List Cell → ℝ → ℝ
  | [], m => m
  | c :: cs, m =>
      let p := conservedToPrimitive c gamma
      let a := soundSpeed p gamma
      let signal := |p.u| + a
      maxSignalAux gamma cs (if signal > m then signal else m)

/-- Source `Solver::computeCFL` (solver.cpp): scan all cells for the maximal
signal speed, floor it at `1e-9`, return `cfl * dx / max_signal`. -/
noncomputable def computeCFL (g : Grid) (cfl gamma : ℝ) : ℝ :=
  let max_signal := maxSignalAux gamma g.cells 0
  let max_signal := if max_signal < 1e-9 then 1e-9 else max_signal
  cfl * g.dx / max_signal

/-- The body of the interface loop in `Solver::step` (solver.cpp): the
reconstructed left/right primitive states at interface `i` of a grid whose
(post boundary-condition) cells are `cs` with `nx` cells, and their HLL
flux.  `i = 0` and `i = nx` mirror the nearest interior cell, negating the
mirrored velocity under `reflective`. -/
noncomputable def interfaceFlux (cs : List Cell) (gamma : ℝ) (bc : String) (nx : ℕ)
    (i : ℕ) : Flux :=
  if i = 0 then
    let R := conservedToPrimitive (cs.getD 0 default) gamma
    let L := if bc = "reflective" then { R with u := -R.u } else R
    computeHLLFlux L R gamma
  else if i = nx then
    let L := conservedToPrimitive (cs.getD (nx - 1) default) gamma
    let R := if bc = "reflective" then { L with u := -L.u } else L
    computeHLLFlux L R gamma
  else
    let L := conservedToPrimitive (cs.getD (i - 1) default) gamma
    let R := conservedToPrimitive (cs.getD i default) gamma
    computeHLLFlux L R gamma

/-- Source `Solver::step` (solver.cpp): apply boundary conditions, compute the
`nx+1` interface fluxes from the (post boundary-condition, pre-update)
state, then the conservative update
`c -= (dt/dx) * (fluxes[i+1] - fluxes[i])` per cell, and advance time by
`dt`.  Returns the updated grid and time. -/
noncomputable def step (g : Grid) (time dt gamma : ℝ) (bc : String) : Grid × ℝ :=
  let nx := g.cells.length
  let dx := g.dx
  let g1 := g.applyBoundaryConditions bc
  let fluxes := fun i => interfaceFlux g1.cells gamma bc nx i
  let ratio := dt / dx
  let newCells := (List.range nx).map fun i =>
    let c := g1.cells.getD i default
    { rho := c.rho - ratio * ((fluxes (i + 1)).rho - (fluxes i).rho)
      mom := c.mom - ratio * ((fluxes (i + 1)).mom - (fluxes i).mom)
      energy := c.energy - ratio * ((fluxes (i + 1)).eng - (fluxes i).eng) : Cell }
  ({ g1 with cells := newCells }, time + dt)

end Solver

/-- Simulation parameters (struct `Params`, utils.h) — the fields the
numerical core reads; the I/O fields (output directory/cadence) drive only
the external snapshot collaborator. -/
structure Params where
  t_final : ℝ
  cfl : ℝ
  gamma : ℝ
  bc_type : String

namespace Solver

/-- The `while (time < p.t_final)` loop of `Solver::runSimulation`
(solver.cpp), with an explicit fuel bound on the number of iterations (the
C++ loop is unbounded; `runLoop p fuel g time` is the state after at most
`fuel` iterations).  Each iteration computes `dt`, clamps it so
`time + dt` does not pass `t_final`, and calls `step`.  Snapshot emission
and logging are external I/O and do not touch the numerical state. -/
noncomputable def runLoop (p : Params) : ℕ → Grid → ℝ → Grid × ℝ
  | 0, g, time => (g, time)
  | fuel + 1, g, time =>
      if time < p.t_final then
        let dt := computeCFL g p.cfl p.gamma
        let dt := if time + dt > p.t_final then p.t_final - time else dt
        let st := step g time dt p.gamma p.bc_type
        runLoop p fuel st.1 st.2
      else (g, time)

/-- The exact physical Euler flux `F(ρ,u,p) = (ρu, ρu² + p, u(E + p))`
with `E` the conserved total energy of the state — the spec's step 3 of
the Riemann flux engine (`F_L`/`F_R`). -/
noncomputable def physFlux (P : Primitive) (gamma : ℝ) : Flux :=
  { rho := P.rho * P.u
    mom := P.rho * P.u * P.u + P.p
    eng := P.u * ((primitiveToConserved P gamma).energy + P.p) }

/-- One cell's contribution to the CFL scan: the signal speed
`|u| + c_s` of the cell's primitive state. -/
noncomputable def signalSpeed (gamma : ℝ) (c : Cell) : ℝ :=
  let p := conservedToPrimitive c gamma
  |p.u| + soundSpeed p gamma

end Solver

end enzo_hll

namespace enzo_hll

open Solver

/-! ## Helper lemmas -/

theorem applyBC_outflow_eq (g : Grid) : g.applyBoundaryConditions "outflow" = g := by
  unfold Grid.applyBoundaryConditions
  split_ifs with h1 h2 <;> simp_all

theorem sourceFlux_eq_physFlux (P : Primitive) (gamma : ℝ) :
    ({ rho := (primitiveToConserved P gamma).mom
       mom := (primitiveToConserved P gamma).mom * P.u + P.p
       eng := P.u * ((primitiveToConserved P gamma).energy + P.p) } : Flux) =
      physFlux P gamma := rfl

theorem soundSpeed_pos (P : Primitive) (gamma : ℝ) (hγ : 0 < gamma) :
    0 < soundSpeed P gamma := by
  unfold soundSpeed
  apply Real.sqrt_pos.mpr
  apply div_pos
  · exact mul_pos hγ (lt_of_lt_of_le (by norm_num) (le_max_right _ _))
  · exact lt_of_lt_of_le (by norm_num) (le_max_right _ _)

theorem soundSpeed_nonneg (P : Primitive) (gamma : ℝ) : 0 ≤ soundSpeed P gamma :=
  Real.sqrt_nonneg _

/-! ## Claim theorems -/

/-- C3: `conservedToPrimitive` returns `ρ = max(c.ρ, 1e-14)`,
`u = c.mom/ρ`, `p = max((γ−1)·(c.energy − ½ρu²), 1e-14)`, and every
primitive it produces has `ρ ≥ 1e-14` and `p ≥ 1e-14`. -/
theorem conservedToPrimitive_spec (c : Cell) (gamma : ℝ) :
    conservedToPrimitive c gamma =
      { rho := max c.rho 1e-14
        u := c.mom / max c.rho 1e-14
        p := max ((gamma - 1) *
              (c.energy - 0.5 * max c.rho 1e-14 * (c.mom / max c.rho 1e-14) *
                (c.mom / max c.rho 1e-14))) 1e-14 } ∧
    1e-14 ≤ (conservedToPrimitive c gamma).rho ∧
    1e-14 ≤ (conservedToPrimitive c gamma).p := by
  refine ⟨rfl, le_max_right _ _, le_max_right _ _⟩

/-- C8: out-of-range `getCell` returns the zero cell and out-of-range
`setCell` is a no-op; in-range `getCell` reads cell `i` and in-range
`setCell` writes exactly cell `i` (all other cells and `dx` unchanged). -/
theorem cell_access_spec (g : Grid) (i : ℤ) (v : Cell) :
    ((i < 0 ∨ (g.cells.length : ℤ) ≤ i) →
      g.getCell i = ⟨0, 0, 0⟩ ∧ g.setCell i v = g) ∧
    (0 ≤ i → i < (g.cells.length : ℤ) →
      g.getCell i = g.cells.getD i.toNat default ∧
      (g.setCell i v).dx = g.dx ∧
      (g.setCell i v).cells.length = g.cells.length ∧
      (g.setCell i v).cells.getD i.toNat default = v ∧
      ∀ j : ℕ, j ≠ i.toNat →
        (g.setCell i v).cells.getD j default = g.cells.getD j default) := by
  constructor
  · intro hout
    have hc : ¬ (0 ≤ i ∧ i < (g.cells.length : ℤ)) := by omega
    constructor
    · simp [Grid.getCell, hc]
    · simp [Grid.setCell, hc]
  · intro h0 hlt
    have hc : 0 ≤ i ∧ i < (g.cells.length : ℤ) := ⟨h0, hlt⟩
    have hnat : i.toNat < g.cells.length := by omega
    refine ⟨by simp [Grid.getCell, hc], by simp [Grid.setCell, hc], ?_, ?_, ?_⟩
    · simp [Grid.setCell, hc]
    · simp [Grid.setCell, hc, List.getD_eq_getElem?_getD, List.getElem?_set_self, hnat]
    · intro j hj
      simp [Grid.setCell, hc, List.getD_eq_getElem?_getD,
        List.getElem?_set_ne (by omega : i.toNat ≠ j)]

/-- C8 witness: the access contract at a concrete one-cell grid, index 0.
-/
theorem cell_access_spec_witness :
    (((0 : ℤ) < 0 ∨ ((Grid.mk 1 [⟨1, 2, 3⟩]).cells.length : ℤ) ≤ 0) →
      (Grid.mk 1 [⟨1, 2, 3⟩]).getCell 0 = ⟨0, 0, 0⟩ ∧
      (Grid.mk 1 [⟨1, 2, 3⟩]).setCell 0 ⟨4, 5, 6⟩ = Grid.mk 1 [⟨1, 2, 3⟩]) ∧
    ((0 : ℤ) ≤ 0 → (0 : ℤ) < ((Grid.mk 1 [⟨1, 2, 3⟩]).cells.length : ℤ) →
      (Grid.mk 1 [⟨1, 2, 3⟩]).getCell 0 =
        (Grid.mk 1 [⟨1, 2, 3⟩]).cells.getD (0 : ℤ).toNat default ∧
      ((Grid.mk 1 [⟨1, 2, 3⟩]).setCell 0 ⟨4, 5, 6⟩).dx = (Grid.mk 1 [⟨1, 2, 3⟩]).dx ∧
      ((Grid.mk 1 [⟨1, 2, 3⟩]).setCell 0 ⟨4, 5, 6⟩).cells.length =
        (Grid.mk 1 [⟨1, 2, 3⟩]).cells.length ∧
      ((Grid.mk 1 [⟨1, 2, 3⟩]).setCell 0 ⟨4, 5, 6⟩).cells.getD (0 : ℤ).toNat default
        = ⟨4, 5, 6⟩ ∧
      ∀ j : ℕ, j ≠ (0 : ℤ).toNat →
        ((Grid.mk 1 [⟨1, 2, 3⟩]).setCell 0 ⟨4, 5, 6⟩).cells.getD j default
          = (Grid.mk 1 [⟨1, 2, 3⟩]).cells.getD j default) :=
  cell_access_spec (Grid.mk 1 [⟨1, 2, 3⟩]) 0 ⟨4, 5, 6⟩

/-- C2: `computeHLLFlux` forms the Davis estimates
`SL = min(uL−aL, uR−aR)`, `SR = max(uL+aL, uR+aR)`; if `SL ≥ 0` it
returns the exact physical left flux `F_L`, else if `SR ≤ 0` it returns
`F_R`, and otherwise `(SR·F_L − SL·F_R + SL·SR·(U_R − U_L))/(SR − SL)`
componentwise, with `U_L`, `U_R` the conserved states of `L`, `R`. -/
theorem computeHLLFlux_branch_spec (L R : Primitive) (gamma : ℝ) :
    computeHLLFlux L R gamma =
      (let aL := soundSpeed L gamma
       let aR := soundSpeed R gamma
       let SL := min (L.u - aL) (R.u - aR)
       let SR := max (L.u + aL) (R.u + aR)
       let UL := primitiveToConserved L gamma
       let UR := primitiveToConserved R gamma
       let FL := physFlux L gamma
       let FR := physFlux R gamma
       if 0 ≤ SL then FL
       else if SR ≤ 0 then FR
       else
         { rho := (SR * FL.rho - SL * FR.rho + SL * SR * (UR.rho - UL.rho)) / (SR - SL)
           mom := (SR * FL.mom - SL * FR.mom + SL * SR * (UR.mom - UL.mom)) / (SR - SL)
           eng := (SR * FL.eng - SL * FR.eng + SL * SR * (UR.energy - UL.energy)) /
             (SR - SL) }) := by
  unfold computeHLLFlux physFlux
  dsimp only
  split_ifs with h1 h2 <;> simp [primitiveToConserved, mul_assoc, ← div_eq_mul_inv]

/-- C10: for every pair of input states and every `γ > 0`, the Davis
estimates satisfy `SR − SL ≥ aL + aR > 0`, so the subsonic division by
`SR − SL` is well-defined: the `SL = SR` degeneracy is unreachable. -/
theorem hll_wavespeed_spread (L R : Primitive) (gamma : ℝ) (hγ : 0 < gamma) :
    soundSpeed L gamma + soundSpeed R gamma ≤
      max (L.u + soundSpeed L gamma) (R.u + soundSpeed R gamma) -
        min (L.u - soundSpeed L gamma) (R.u - soundSpeed R gamma) ∧
    0 < soundSpeed L gamma + soundSpeed R gamma := by
  have haL := soundSpeed_pos L gamma hγ
  have haR := soundSpeed_pos R gamma hγ
  have h1 : L.u + soundSpeed L gamma ≤ max (L.u + soundSpeed L gamma) (R.u + soundSpeed R gamma) :=
    le_max_left _ _
  have h2 : R.u + soundSpeed R gamma ≤ max (L.u + soundSpeed L gamma) (R.u + soundSpeed R gamma) :=
    le_max_right _ _
  have h3 : min (L.u - soundSpeed L gamma) (R.u - soundSpeed R gamma) ≤ L.u - soundSpeed L gamma :=
    min_le_left _ _
  have h4 : min (L.u - soundSpeed L gamma) (R.u - soundSpeed R gamma) ≤ R.u - soundSpeed R gamma :=
    min_le_right _ _
  constructor
  · linarith
  · linarith

/-- C10 witness: the spread bound at the Sod interface states, `γ = 1.4`.
-/
theorem hll_wavespeed_spread_witness :
    (0 : ℝ) < 1.4 ∧
    (soundSpeed ⟨1, 0, 1⟩ 1.4 + soundSpeed ⟨0.125, 0, 0.1⟩ 1.4 ≤
      max ((Primitive.mk 1 0 1).u + soundSpeed ⟨1, 0, 1⟩ 1.4)
        ((Primitive.mk 0.125 0 0.1).u + soundSpeed ⟨0.125, 0, 0.1⟩ 1.4) -
        min ((Primitive.mk 1 0 1).u - soundSpeed ⟨1, 0, 1⟩ 1.4)
          ((Primitive.mk 0.125 0 0.1).u - soundSpeed ⟨0.125, 0, 0.1⟩ 1.4) ∧
      0 < soundSpeed ⟨1, 0, 1⟩ 1.4 + soundSpeed ⟨0.125, 0, 0.1⟩ 1.4) :=
  ⟨by norm_num, hll_wavespeed_spread ⟨1, 0, 1⟩ ⟨0.125, 0, 0.1⟩ 1.4 (by norm_num)⟩

/-- C5: when both sides of the interface carry the same primitive state,
the HLL flux is the exact physical flux of that state. -/
theorem hll_flux_consistency (P : Primitive) (gamma : ℝ) (hγ : 0 < gamma) :
    computeHLLFlux P P gamma = physFlux P gamma := by
  unfold computeHLLFlux
  dsimp only
  rw [min_self, max_self]
  split_ifs with h1 h2
  · rfl
  · rfl
  · have hSL : P.u - soundSpeed P gamma < 0 := lt_of_not_ge h1
    have hSR : 0 < P.u + soundSpeed P gamma := lt_of_not_ge h2
    have hne : (P.u + soundSpeed P gamma) - (P.u - soundSpeed P gamma) ≠ 0 := by linarith
    have ha : soundSpeed P gamma ≠ 0 := by intro h; rw [h] at hSL hSR; linarith
    unfold physFlux
    simp only [Flux.mk.injEq]
    refine ⟨?_, ?_, ?_⟩ <;> · dsimp only; field_simp [primitiveToConserved, ha]; ring

/-- C5 witness: consistency at the Sod left state with `γ = 1.4`. -/
theorem hll_flux_consistency_witness :
    (0 : ℝ) < 1.4 ∧ computeHLLFlux ⟨1, 0, 1⟩ ⟨1, 0, 1⟩ 1.4 = physFlux ⟨1, 0, 1⟩ 1.4 :=
  ⟨by norm_num, hll_flux_consistency ⟨1, 0, 1⟩ 1.4 (by norm_num)⟩

/-- C4 counterexample: the round trip is not the identity on every
primitive state with `ρ > 0`, `p > 0` and `γ ∈ (1, 2]`: at
`ρ = 1e-20, u = 0, p = 1`, `γ = 3/2`, the density comes back as the floor
`1e-14` — a relative error of a factor `10⁶`, far outside floating-point
tolerance. -/
theorem roundtrip_counterexample :
    (0 : ℝ) < 1e-20 ∧ (0 : ℝ) < 1 ∧ (1 : ℝ) < 3 / 2 ∧ (3 / 2 : ℝ) ≤ 2 ∧
    (conservedToPrimitive (primitiveToConserved ⟨1e-20, 0, 1⟩ (3 / 2)) (3 / 2)).rho
      = 1e-14 ∧
    conservedToPrimitive (primitiveToConserved ⟨1e-20, 0, 1⟩ (3 / 2)) (3 / 2)
      ≠ ⟨1e-20, 0, 1⟩ := by
  have hrho : (conservedToPrimitive (primitiveToConserved ⟨1e-20, 0, 1⟩ (3 / 2)) (3 / 2)).rho
      = 1e-14 := by
    show max (1e-20 : ℝ) 1e-14 = 1e-14
    rw [max_eq_right (by norm_num)]
  refine ⟨by norm_num, by norm_num, by norm_num, by norm_num, hrho, fun h => ?_⟩
  have := congrArg Primitive.rho h
  rw [hrho] at this
  norm_num at this

/-- C4 (amended): for every primitive state with `ρ ≥ 1e-14` and
`p ≥ 1e-14` (at or above the vacuum floor) and every `γ ∈ (1, 2]`,
`toPrimitive(toConserved(p, γ), γ)` recovers `p` exactly. -/
theorem roundtrip_exact (P : Primitive) (gamma : ℝ)
    (hρ : (1e-14 : ℝ) ≤ P.rho) (hp : (1e-14 : ℝ) ≤ P.p)
    (hγ1 : 1 < gamma) (hγ2 : gamma ≤ 2) :
    conservedToPrimitive (primitiveToConserved P gamma) gamma = P := by
  have hρ0 : P.rho ≠ 0 := by intro h; rw [h] at hρ; norm_num at hρ
  have hγ : gamma - 1 ≠ 0 := by intro h; rw [sub_eq_zero] at h; exact absurd h.symm hγ1.ne
  have hmax : max P.rho 1e-14 = P.rho := max_eq_left hρ
  have hu : P.rho * P.u / P.rho = P.u := by field_simp
  unfold conservedToPrimitive primitiveToConserved
  dsimp only
  rw [hmax, hu]
  have hp2 : (gamma - 1) * (P.p / (gamma - 1) + 0.5 * P.rho * P.u * P.u -
      0.5 * P.rho * P.u * P.u) = P.p := by
    field_simp
    ring
  rw [hp2, max_eq_left hp]

/-- C4 witness: the exact round trip at `ρ = 1, u = 2, p = 1`,
`γ = 3/2`. -/
theorem roundtrip_exact_witness :
    (1e-14 : ℝ) ≤ (Primitive.mk 1 2 1).rho ∧ (1e-14 : ℝ) ≤ (Primitive.mk 1 2 1).p ∧
    (1 : ℝ) < 3 / 2 ∧ (3 / 2 : ℝ) ≤ 2 ∧
    conservedToPrimitive (primitiveToConserved ⟨1, 2, 1⟩ (3 / 2)) (3 / 2) = ⟨1, 2, 1⟩ :=
  ⟨by norm_num, by norm_num, by norm_num, by norm_num,
    roundtrip_exact ⟨1, 2, 1⟩ (3 / 2) (by norm_num) (by norm_num) (by norm_num) (by norm_num)⟩

theorem negMomAt_length (cs : List Cell) (i : ℕ) :
    (Grid.negMomAt cs i).length = cs.length := by
  unfold Grid.negMomAt
  cases h : cs.get? i <;> simp

theorem negMomAt_oob (cs : List Cell) (i : ℕ) (h : cs.length ≤ i) :
    Grid.negMomAt cs i = cs := by
  unfold Grid.negMomAt
  rw [List.get?_eq_none.2 h]

theorem negMomAt_getD_ne (cs : List Cell) (i j : ℕ) (hij : j ≠ i) (d : Cell) :
    (Grid.negMomAt cs i).getD j d = cs.getD j d := by
  unfold Grid.negMomAt
  cases h : cs.get? i with
  | none => rfl
  | some c => simp [List.getD_eq_getElem?_getD, List.getElem?_set_ne (Ne.symm hij)]

theorem negMomAt_getD_self (cs : List Cell) (i : ℕ) (h : i < cs.length) (d : Cell) :
    (Grid.negMomAt cs i).getD i d =
      { cs.getD i d with mom := -(cs.getD i d).mom } := by
  have hget : cs.getD i d = cs.get ⟨i, h⟩ := by
    simp [List.getD_eq_getElem?_getD, List.getElem?_eq_getElem h, List.get_eq_getElem]
  unfold Grid.negMomAt
  rw [List.get?_eq_get h]
  rw [hget]
  simp [List.getD_eq_getElem?_getD, List.getElem?_set_self, h]

theorem negMomAt_rho_energy (cs : List Cell) (i j : ℕ) (d : Cell) :
    ((Grid.negMomAt cs i).getD j d).rho = (cs.getD j d).rho ∧
    ((Grid.negMomAt cs i).getD j d).energy = (cs.getD j d).energy := by
  by_cases hij : j = i
  · subst hij
    by_cases h : j < cs.length
    · rw [negMomAt_getD_self cs j h]
      exact ⟨rfl, rfl⟩
    · rw [negMomAt_oob cs j (le_of_not_lt h)]
      exact ⟨rfl, rfl⟩
  · rw [negMomAt_getD_ne cs i j hij]
    exact ⟨rfl, rfl⟩

/-- C7 counterexample: on a one-cell grid (which the `nx_ < 2` early
return excludes), `reflective` does not negate the momentum of cell 0:
the momentum stays `5` instead of becoming `-5`. -/
theorem applyBC_counterexample :
    (((Grid.mk 1 [⟨1, 5, 3⟩]).applyBoundaryConditions "reflective").cells.getD 0
        default).mom = 5 ∧
    (((Grid.mk 1 [⟨1, 5, 3⟩]).applyBoundaryConditions "reflective").cells.getD 0
        default).mom ≠
      -(((Grid.mk 1 [⟨1, 5, 3⟩]).cells.getD 0 default).mom) := by
  have h : (Grid.mk 1 [⟨1, 5, 3⟩]).applyBoundaryConditions "reflective"
      = Grid.mk 1 [⟨1, 5, 3⟩] := by
    unfold Grid.applyBoundaryConditions
    norm_num
  rw [h]
  norm_num

/-- C7 (amended): `applyBoundaryConditions` keeps the geometry and the
cell count, changes no density or energy field, changes no interior
cell; every kind other than `reflective` (including `outflow`,
`transmissive` and unrecognized kinds) mutates nothing, as does any kind
on a grid with fewer than two cells; `reflective` on a grid with at
least two cells negates the momentum of cell `0` and of cell `N−1` in
place. -/
theorem applyBoundaryConditions_spec (g : Grid) (bc : String) :
    (g.applyBoundaryConditions bc).dx = g.dx ∧
    (g.applyBoundaryConditions bc).cells.length = g.cells.length ∧
    (∀ i : ℕ,
      ((g.applyBoundaryConditions bc).cells.getD i default).rho
        = (g.cells.getD i default).rho ∧
      ((g.applyBoundaryConditions bc).cells.getD i default).energy
        = (g.cells.getD i default).energy) ∧
    (∀ i : ℕ, 0 < i → i < g.cells.length - 1 →
      (g.applyBoundaryConditions bc).cells.getD i default = g.cells.getD i default) ∧
    (bc ≠ "reflective" → g.applyBoundaryConditions bc = g) ∧
    (g.cells.length < 2 → g.applyBoundaryConditions bc = g) ∧
    (bc = "reflective" → 2 ≤ g.cells.length →
      ((g.applyBoundaryConditions bc).cells.getD 0 default).mom
        = -((g.cells.getD 0 default).mom) ∧
      ((g.applyBoundaryConditions bc).cells.getD (g.cells.length - 1) default).mom
        = -((g.cells.getD (g.cells.length - 1) default).mom)) := by
  unfold Grid.applyBoundaryConditions
  split_ifs with h1 h2 h3
  · exact ⟨rfl, rfl, fun i => ⟨rfl, rfl⟩, fun i _ _ => rfl, fun _ => rfl, fun _ => rfl,
      fun _ hn => absurd h1 (by omega)⟩
  · refine ⟨rfl, rfl, fun i => ⟨rfl, rfl⟩, fun i _ _ => rfl, fun _ => rfl, fun _ => rfl,
      fun hr _ => ?_⟩
    rw [hr] at h2
    simp at h2
  · -- reflective on a grid with at least two cells
    have hn : 2 ≤ g.cells.length := by omega
    have h0lt : 0 < g.cells.length := by omega
    have hlast : g.cells.length - 1 < g.cells.length := by omega
    have hne01 : (0 : ℕ) ≠ g.cells.length - 1 := by omega
    have hlen0 : (Grid.negMomAt g.cells 0).length = g.cells.length :=
      negMomAt_length g.cells 0
    refine ⟨rfl, ?_, ?_, ?_, ?_, ?_, ?_⟩
    · show (Grid.negMomAt (Grid.negMomAt g.cells 0) (g.cells.length - 1)).length
        = g.cells.length
      rw [negMomAt_length, negMomAt_length]
    · intro i
      show ((Grid.negMomAt (Grid.negMomAt g.cells 0) (g.cells.length - 1)).getD i
          default).rho = _ ∧ _
      obtain ⟨hr1, he1⟩ :=
        negMomAt_rho_energy (Grid.negMomAt g.cells 0) (g.cells.length - 1) i default
      obtain ⟨hr2, he2⟩ := negMomAt_rho_energy g.cells 0 i default
      exact ⟨hr1.trans hr2, he1.trans he2⟩
    · intro i hi0 hilast
      show (Grid.negMomAt (Grid.negMomAt g.cells 0) (g.cells.length - 1)).getD i default
        = g.cells.getD i default
      rw [negMomAt_getD_ne _ _ _ (by omega), negMomAt_getD_ne _ _ _ (by omega)]
    · intro hbc
      exact absurd h3 hbc
    · intro hlen
      exact absurd h1 (by omega)
    · intro _ _
      constructor
      · show ((Grid.negMomAt (Grid.negMomAt g.cells 0) (g.cells.length - 1)).getD 0
            default).mom = _
        rw [negMomAt_getD_ne _ _ _ hne01, negMomAt_getD_self g.cells 0 h0lt]
      · show ((Grid.negMomAt (Grid.negMomAt g.cells 0) (g.cells.length - 1)).getD
            (g.cells.length - 1) default).mom = _
        rw [negMomAt_getD_self _ _ (by rw [hlen0]; exact hlast),
          negMomAt_getD_ne _ _ _ (Ne.symm hne01)]
  · refine ⟨rfl, rfl, fun i => ⟨rfl, rfl⟩, fun i _ _ => rfl, fun _ => rfl, fun _ => rfl,
      fun hr _ => absurd hr h3⟩

/-- C7 witness: the boundary-condition contract at a concrete two-cell
grid under `reflective`. -/
theorem applyBoundaryConditions_spec_witness :
    ((Grid.mk 1 [⟨1, 2, 3⟩, ⟨4, 5, 6⟩]).applyBoundaryConditions "reflective").dx
      = (Grid.mk 1 [⟨1, 2, 3⟩, ⟨4, 5, 6⟩]).dx ∧
    ((Grid.mk 1 [⟨1, 2, 3⟩, ⟨4, 5, 6⟩]).applyBoundaryConditions "reflective").cells.length
      = (Grid.mk 1 [⟨1, 2, 3⟩, ⟨4, 5, 6⟩]).cells.length ∧
    (∀ i : ℕ,
      (((Grid.mk 1 [⟨1, 2, 3⟩, ⟨4, 5, 6⟩]).applyBoundaryConditions
          "reflective").cells.getD i default).rho
        = ((Grid.mk 1 [⟨1, 2, 3⟩, ⟨4, 5, 6⟩]).cells.getD i default).rho ∧
      (((Grid.mk 1 [⟨1, 2, 3⟩, ⟨4, 5, 6⟩]).applyBoundaryConditions
          "reflective").cells.getD i default).energy
        = ((Grid.mk 1 [⟨1, 2, 3⟩, ⟨4, 5, 6⟩]).cells.getD i default).energy) ∧
    (∀ i : ℕ, 0 < i → i < (Grid.mk 1 [⟨1, 2, 3⟩, ⟨4, 5, 6⟩]).cells.length - 1 →
      ((Grid.mk 1 [⟨1, 2, 3⟩, ⟨4, 5, 6⟩]).applyBoundaryConditions
          "reflective").cells.getD i default
        = (Grid.mk 1 [⟨1, 2, 3⟩, ⟨4, 5, 6⟩]).cells.getD i default) ∧
    ("reflective" ≠ "reflective" →
      (Grid.mk 1 [⟨1, 2, 3⟩, ⟨4, 5, 6⟩]).applyBoundaryConditions "reflective"
        = Grid.mk 1 [⟨1, 2, 3⟩, ⟨4, 5, 6⟩]) ∧
    ((Grid.mk 1 [⟨1, 2, 3⟩, ⟨4, 5, 6⟩]).cells.length < 2 →
      (Grid.mk 1 [⟨1, 2, 3⟩, ⟨4, 5, 6⟩]).applyBoundaryConditions "reflective"
        = Grid.mk 1 [⟨1, 2, 3⟩, ⟨4, 5, 6⟩]) ∧
    ("reflective" = "reflective" →
      2 ≤ (Grid.mk 1 [⟨1, 2, 3⟩, ⟨4, 5, 6⟩]).cells.length →
      (((Grid.mk 1 [⟨1, 2, 3⟩, ⟨4, 5, 6⟩]).applyBoundaryConditions
          "reflective").cells.getD 0 default).mom
        = -(((Grid.mk 1 [⟨1, 2, 3⟩, ⟨4, 5, 6⟩]).cells.getD 0 default).mom) ∧
      (((Grid.mk 1 [⟨1, 2, 3⟩, ⟨4, 5, 6⟩]).applyBoundaryConditions
          "reflective").cells.getD
            ((Grid.mk 1 [⟨1, 2, 3⟩, ⟨4, 5, 6⟩]).cells.length - 1) default).mom
        = -(((Grid.mk 1 [⟨1, 2, 3⟩, ⟨4, 5, 6⟩]).cells.getD
            ((Grid.mk 1 [⟨1, 2, 3⟩, ⟨4, 5, 6⟩]).cells.length - 1) default).mom)) :=
  applyBoundaryConditions_spec (Grid.mk 1 [⟨1, 2, 3⟩, ⟨4, 5, 6⟩]) "reflective"

theorem if_gt_eq_max (m s : ℝ) : (if s > m then s else m) = max m s := by
  rcases le_or_lt s m with h | h
  · rw [if_neg (not_lt.2 h), max_eq_left h]
  · rw [if_pos h, max_eq_right h.le]

theorem maxSignalAux_eq_foldl (gamma : ℝ) (cs : List Cell) (m : ℝ) :
    maxSignalAux gamma cs m = (cs.map (signalSpeed gamma)).foldl max m := by
  induction cs generalizing m with
  | nil => rfl
  | cons c t ih =>
      show maxSignalAux gamma t
          (if signalSpeed gamma c > m then signalSpeed gamma c else m) = _
      rw [ih, if_gt_eq_max, List.map_cons, List.foldl_cons]

theorem le_foldl_max (l : List ℝ) (m : ℝ) : m ≤ l.foldl max m := by
  induction l generalizing m with
  | nil => exact le_refl m
  | cons a t ih => exact le_trans (le_max_left m a) (ih (max m a))

theorem mem_le_foldl_max (l : List ℝ) (m x : ℝ) (hx : x ∈ l) : x ≤ l.foldl max m := by
  induction l generalizing m with
  | nil => cases hx
  | cons a t ih =>
      rcases List.mem_cons.1 hx with h | h
      · subst h
        exact le_trans (le_max_right m x) (le_foldl_max t (max m x))
      · exact ih (max m a) h

theorem foldl_max_cases (l : List ℝ) (m : ℝ) :
    l.foldl max m = m ∨ l.foldl max m ∈ l := by
  induction l generalizing m with
  | nil => exact Or.inl rfl
  | cons a t ih =>
      rw [List.foldl_cons]
      rcases ih (max m a) with h | h
      · rcases max_choice m a with hm | hm
        · exact Or.inl (h.trans hm)
        · exact Or.inr (List.mem_cons.2 (Or.inl (h.trans hm)))
      · exact Or.inr (List.mem_cons.2 (Or.inr h))

theorem signalSpeed_nonneg (gamma : ℝ) (c : Cell) : 0 ≤ signalSpeed gamma c :=
  add_nonneg (abs_nonneg _) (soundSpeed_nonneg _ _)

/-- C6: `computeCFL` returns `cfl · dx / max(maxSignal, 1e-9)` where
`maxSignal` is the true maximum of `|u| + c_s` over all cells (zero on an
empty grid): it bounds every cell's signal speed and is attained on some
cell whenever the grid is nonempty.  (The embedding is functional, so the
grid is read, never mutated, by construction.) -/
theorem computeCFL_spec (g : Grid) (cfl gamma : ℝ) :
    computeCFL g cfl gamma = cfl * g.dx / max (maxSignalAux gamma g.cells 0) 1e-9 ∧
    (∀ c ∈ g.cells, signalSpeed gamma c ≤ maxSignalAux gamma g.cells 0) ∧
    0 ≤ maxSignalAux gamma g.cells 0 ∧
    (g.cells ≠ [] →
      ∃ c ∈ g.cells, maxSignalAux gamma g.cells 0 = signalSpeed gamma c) := by
  have hfold := maxSignalAux_eq_foldl gamma g.cells 0
  refine ⟨?_, ?_, ?_, ?_⟩
  · show cfl * g.dx / _ = _
    congr 1
    rcases lt_or_le (maxSignalAux gamma g.cells 0) 1e-9 with h | h
    · rw [if_pos h, max_eq_right h.le]
    · rw [if_neg (not_lt.2 h), max_eq_left h]
  · intro c hc
    rw [hfold]
    exact mem_le_foldl_max _ 0 _ (List.mem_map_of_mem _ hc)
  · rw [hfold]
    exact le_foldl_max _ 0
  · intro hne
    rcases foldl_max_cases (g.cells.map (signalSpeed gamma)) 0 with h | h
    · rcases List.exists_mem_of_ne_nil g.cells hne with ⟨c, hc⟩
      refine ⟨c, hc, le_antisymm ?_ ?_⟩
      · rw [hfold, h]
        exact signalSpeed_nonneg gamma c
      · rw [hfold]
        exact mem_le_foldl_max _ 0 _ (List.mem_map_of_mem _ hc)
    · rw [hfold]
      rcases List.mem_map.1 h with ⟨c, hc, hcv⟩
      exact ⟨c, hc, hcv.symm⟩

/-- C6 witness: the CFL contract at a concrete two-cell grid,
`cfl = 0.8`, `γ = 1.4`. -/
theorem computeCFL_spec_witness :
    computeCFL (Grid.mk 0.5 [⟨1, 0, 1⟩, ⟨2, 3, 4⟩]) 0.8 1.4 =
      0.8 * (Grid.mk 0.5 [⟨1, 0, 1⟩, ⟨2, 3, 4⟩]).dx /
        max (maxSignalAux 1.4 (Grid.mk 0.5 [⟨1, 0, 1⟩, ⟨2, 3, 4⟩]).cells 0) 1e-9 ∧
    (∀ c ∈ (Grid.mk 0.5 [⟨1, 0, 1⟩, ⟨2, 3, 4⟩]).cells,
      signalSpeed 1.4 c ≤ maxSignalAux 1.4 (Grid.mk 0.5 [⟨1, 0, 1⟩, ⟨2, 3, 4⟩]).cells 0) ∧
    0 ≤ maxSignalAux 1.4 (Grid.mk 0.5 [⟨1, 0, 1⟩, ⟨2, 3, 4⟩]).cells 0 ∧
    ((Grid.mk 0.5 [⟨1, 0, 1⟩, ⟨2, 3, 4⟩]).cells ≠ [] →
      ∃ c ∈ (Grid.mk 0.5 [⟨1, 0, 1⟩, ⟨2, 3, 4⟩]).cells,
        maxSignalAux 1.4 (Grid.mk 0.5 [⟨1, 0, 1⟩, ⟨2, 3, 4⟩]).cells 0
          = signalSpeed 1.4 c) :=
  computeCFL_spec (Grid.mk 0.5 [⟨1, 0, 1⟩, ⟨2, 3, 4⟩]) 0.8 1.4

theorem step_snd (g : Grid) (time dt gamma : ℝ) (bc : String) :
    (step g time dt gamma bc).2 = time + dt := rfl

theorem runLoop_time_le (p : Params) (fuel : ℕ) :
    ∀ (g : Grid) (time : ℝ), time ≤ p.t_final → (runLoop p fuel g time).2 ≤ p.t_final := by
  induction fuel with
  | zero => exact fun g time h => h
  | succ n ih =>
      intro g time h
      unfold runLoop
      split_ifs with hlt
      · dsimp only
        apply ih
        rw [step_snd]
        split_ifs with hclamp
        · linarith
        · push_neg at hclamp
          linarith
      · exact h

/-- C9: each iteration of the `runSimulation` loop clamps `dt` so that
`time + dt` cannot pass `t_final`: starting at or below `t_final`, the
simulation time stays at or below `t_final` after any number of
iterations; and as soon as `time` reaches `t_final` the loop guard fails
and the loop exits leaving the state untouched. -/
theorem runSimulation_time_bound (p : Params) (fuel : ℕ) (g : Grid) (time : ℝ) :
    (time ≤ p.t_final → (runLoop p fuel g time).2 ≤ p.t_final) ∧
    (p.t_final ≤ time → runLoop p fuel g time = (g, time)) := by
  constructor
  · exact runLoop_time_le p fuel g time
  · intro h
    cases fuel with
    | zero => rfl
    | succ n =>
        unfold runLoop
        rw [if_neg (not_lt.2 h)]

/-- C9 witness: the time bound and loop exit at a concrete parameter set
(`t_final = 1`) and one-cell grid. -/
theorem runSimulation_time_bound_witness :
    (runLoop ⟨1, 0.8, 1.4, "outflow"⟩ 3 (Grid.mk 1 [⟨1, 0, 1⟩]) 0).2 ≤ 1 ∧
    runLoop ⟨1, 0.8, 1.4, "outflow"⟩ 3 (Grid.mk 1 [⟨1, 0, 1⟩]) 2
      = (Grid.mk 1 [⟨1, 0, 1⟩], 2) :=
  ⟨(runSimulation_time_bound ⟨1, 0.8, 1.4, "outflow"⟩ 3 (Grid.mk 1 [⟨1, 0, 1⟩]) 0).1
      (by norm_num),
   (runSimulation_time_bound ⟨1, 0.8, 1.4, "outflow"⟩ 3 (Grid.mk 1 [⟨1, 0, 1⟩]) 2).2
      (by norm_num)⟩

theorem sum_map_range_sub (n : ℕ) (a F : ℕ → ℝ) (r : ℝ) :
    (((List.range n).map fun i => a i - r * (F (i + 1) - F i)).sum)
      = ((List.range n).map a).sum - r * (F n - F 0) := by
  induction n with
  | zero => simp
  | succ n ih =>
      rw [show List.range (n + 1) = List.range n ++ [n] by exact List.range_succ n]
      rw [List.map_append, List.sum_append, List.map_append, List.sum_append, ih]
      simp only [List.map_cons, List.map_nil, List.sum_cons, List.sum_nil]
      ring

theorem sum_proj_getD (l : List Cell) (f : Cell → ℝ) :
    ((List.range l.length).map fun i => f (l.getD i default)).sum = (l.map f).sum := by
  induction l with
  | nil => rfl
  | cons a t ih =>
      rw [List.length_cons, List.range_succ_eq_map, List.map_cons, List.map_map,
        List.sum_cons]
      have hcomp : ((fun i => f ((a :: t).getD i default)) ∘ Nat.succ)
          = fun i => f (t.getD i default) := rfl
      rw [hcomp, ih, List.map_cons, List.sum_cons]
      simp

theorem conservation_core (l : List Cell) (r : ℝ) (F G H : ℕ → ℝ) :
    ((((List.range l.length).map fun i =>
        ({ rho := (l.getD i default).rho - r * (F (i + 1) - F i)
           mom := (l.getD i default).mom - r * (G (i + 1) - G i)
           energy := (l.getD i default).energy - r * (H (i + 1) - H i) } : Cell)).map
        Cell.rho).sum = (l.map Cell.rho).sum - r * (F l.length - F 0)) ∧
    ((((List.range l.length).map fun i =>
        ({ rho := (l.getD i default).rho - r * (F (i + 1) - F i)
           mom := (l.getD i default).mom - r * (G (i + 1) - G i)
           energy := (l.getD i default).energy - r * (H (i + 1) - H i) } : Cell)).map
        Cell.mom).sum = (l.map Cell.mom).sum - r * (G l.length - G 0)) ∧
    ((((List.range l.length).map fun i =>
        ({ rho := (l.getD i default).rho - r * (F (i + 1) - F i)
           mom := (l.getD i default).mom - r * (G (i + 1) - G i)
           energy := (l.getD i default).energy - r * (H (i + 1) - H i) } : Cell)).map
        Cell.energy).sum = (l.map Cell.energy).sum - r * (H l.length - H 0)) := by
  refine ⟨?_, ?_, ?_⟩
  · calc ((((List.range l.length).map fun i =>
          ({ rho := (l.getD i default).rho - r * (F (i + 1) - F i)
             mom := (l.getD i default).mom - r * (G (i + 1) - G i)
             energy := (l.getD i default).energy - r * (H (i + 1) - H i) } : Cell)).map
          Cell.rho).sum)
        = (((List.range l.length).map fun i =>
            (l.getD i default).rho - r * (F (i + 1) - F i)).sum) := by
          rw [List.map_map]
          rfl
      _ = ((List.range l.length).map fun i => (l.getD i default).rho).sum -
            r * (F l.length - F 0) :=
          sum_map_range_sub l.length (fun i => (l.getD i default).rho) F r
      _ = (l.map Cell.rho).sum - r * (F l.length - F 0) := by
          rw [sum_proj_getD l Cell.rho]
  · calc ((((List.range l.length).map fun i =>
          ({ rho := (l.getD i default).rho - r * (F (i + 1) - F i)
             mom := (l.getD i default).mom - r * (G (i + 1) - G i)
             energy := (l.getD i default).energy - r * (H (i + 1) - H i) } : Cell)).map
          Cell.mom).sum)
        = (((List.range l.length).map fun i =>
            (l.getD i default).mom - r * (G (i + 1) - G i)).sum) := by
          rw [List.map_map]
          rfl
      _ = ((List.range l.length).map fun i => (l.getD i default).mom).sum -
            r * (G l.length - G 0) :=
          sum_map_range_sub l.length (fun i => (l.getD i default).mom) G r
      _ = (l.map Cell.mom).sum - r * (G l.length - G 0) := by
          rw [sum_proj_getD l Cell.mom]
  · calc ((((List.range l.length).map fun i =>
          ({ rho := (l.getD i default).rho - r * (F (i + 1) - F i)
             mom := (l.getD i default).mom - r * (G (i + 1) - G i)
             energy := (l.getD i default).energy - r * (H (i + 1) - H i) } : Cell)).map
          Cell.energy).sum)
        = (((List.range l.length).map fun i =>
            (l.getD i default).energy - r * (H (i + 1) - H i)).sum) := by
          rw [List.map_map]
          rfl
      _ = ((List.range l.length).map fun i => (l.getD i default).energy).sum -
            r * (H l.length - H 0) :=
          sum_map_range_sub l.length (fun i => (l.getD i default).energy) H r
      _ = (l.map Cell.energy).sum - r * (H l.length - H 0) := by
          rw [sum_proj_getD l Cell.energy]

/-- C1: under `outflow` boundary conditions one `Solver::step` changes
the total density, momentum and energy only by
`(dt/dx)·(flux[N] − flux[0])`, where `flux[0..N]` are the interface
fluxes computed from the pre-update state: all interior flux
contributions telescope away.  (Proved for every grid, in particular
every `N ≥ 1`.) -/
theorem step_conservation_outflow (g : Grid) (time dt gamma : ℝ) :
    (((step g time dt gamma "outflow").1.cells.map Cell.rho).sum =
      (g.cells.map Cell.rho).sum - dt / g.dx *
        ((interfaceFlux g.cells gamma "outflow" g.cells.length g.cells.length).rho -
          (interfaceFlux g.cells gamma "outflow" g.cells.length 0).rho)) ∧
    (((step g time dt gamma "outflow").1.cells.map Cell.mom).sum =
      (g.cells.map Cell.mom).sum - dt / g.dx *
        ((interfaceFlux g.cells gamma "outflow" g.cells.length g.cells.length).mom -
          (interfaceFlux g.cells gamma "outflow" g.cells.length 0).mom)) ∧
    (((step g time dt gamma "outflow").1.cells.map Cell.energy).sum =
      (g.cells.map Cell.energy).sum - dt / g.dx *
        ((interfaceFlux g.cells gamma "outflow" g.cells.length g.cells.length).eng -
          (interfaceFlux g.cells gamma "outflow" g.cells.length 0).eng)) := by
  have key := conservation_core g.cells (dt / g.dx)
      (fun i => (interfaceFlux g.cells gamma "outflow" g.cells.length i).rho)
      (fun i => (interfaceFlux g.cells gamma "outflow" g.cells.length i).mom)
      (fun i => (interfaceFlux g.cells gamma "outflow" g.cells.length i).eng)
  have hbc : g.applyBoundaryConditions "outflow" = g := applyBC_outflow_eq g
  unfold step
  rw [hbc]
  exact key

end enzo_hll
